import Mathlib

/-!
Verification of the mitaka browser-extension core (src/background.ts and the
ONYPHE searcher class) against its natural-language specification.

Strings are modelled as lists of characters (`MStr`), so that the JavaScript
operations the code relies on — `String.split(" ")`, `Array.join(" ")`,
template-string concatenation — become executable Lean functions amenable to
proof.  Browser side effects (menu creation, tab creation, notifications) are
modelled as explicit effect values; a JavaScript exception is an
`Except.error` carrying the error message.
-/

namespace Mitaka

/-- Strings are modelled as lists of characters. -/
abbrev MStr := List Char

/-- Coerce a Lean string literal into the character-list model. -/
def str (s : String) : MStr := s.data

/-- Model of JavaScript `s.split(" ")`: split at every single space,
keeping empty fragments (so `split "" = [""]` and `split " " = ["", ""]`,
as in JavaScript). -/
def splitSp : MStr → List MStr
  | [] => [[]]
  | c :: cs =>
    match splitSp cs with
    | [] => [[]]
    | w :: ws => if c = ' ' then [] :: w :: ws else (c :: w) :: ws

/-- Model of JavaScript `words.join(" ")`. -/
def joinSp : List MStr → MStr
  | [] => []
  | [w] => w
  | w :: w2 :: ws => w ++ ' ' :: joinSp (w2 :: ws)

/-- ASCII lower-casing of one character (model of `toLowerCase` on the
ASCII action words the menu ids use). -/
def asciiLowerChar (c : Char) : Char :=
  if 'A' ≤ c ∧ c ≤ 'Z' then Char.ofNat (c.toNat + 32) else c

/-- ASCII lower-casing of a string. -/
def asciiLower (s : MStr) : MStr := s.map asciiLowerChar

/-- An analyzer as the menu-building code sees it: only its `name` is
consulted (src/background.ts reads `entry.analyzer.name`). -/
structure Analyzer where
  name : MStr
deriving DecidableEq

/-- `AnalyzerEntry { analyzer, type, query }` from src/lib/types
(as used by src/background.ts). -/
structure AnalyzerEntry where
  analyzer : Analyzer
  type : MStr
  query : MStr
deriving DecidableEq

/-- `SearcherStates`: a finite mapping from analyzer name to a boolean,
modelled as an association list (JavaScript object keys are unique; lookup
finds the first binding). -/
abbrev SearcherStates := List (MStr × Bool)

/-- Lookup in a `SearcherStates` mapping: `none` models `name in states`
being false, `some b` models `states[name] = b`. -/
def lookupState : SearcherStates → MStr → Option Bool
  | [], _ => none
  | (k, v) :: rest, name => if k = name then some v else lookupState rest name

/-- The skip test of src/background.ts line 85:
`name in searcherStates && !searcherStates[name]` means the entry is
dropped; `enabledB` is the complement (entry kept). -/
def enabledB (states : SearcherStates) (name : MStr) : Bool :=
  match lookupState states name with
  | some false => false
  | _ => true

/-- A context-menu item as created by `browser.contextMenus.create`
(the `contexts` field is the constant `["selection"]` and is omitted). -/
structure MenuItem where
  id : MStr
  title : MStr
deriving DecidableEq

/-- Menu item of the searcher loop (src/background.ts lines 94-98). -/
def mkSearcherItem (e : AnalyzerEntry) : MenuItem :=
  { id := str "Search " ++ e.query ++ str " as a " ++ e.type ++ str " on " ++ e.analyzer.name
    title := str "Search this " ++ e.type ++ str " on " ++ e.analyzer.name }

/-- Menu item of the search-on-all branch (src/background.ts lines 102-110). -/
def mkAllItem (e : AnalyzerEntry) : MenuItem :=
  { id := str "Search " ++ e.query ++ str " as a " ++ e.type ++ str " on all"
    title := str "Search this " ++ e.type ++ str " on all" }

/-- Menu item of the scanner loop (src/background.ts lines 114-121). -/
def mkScannerItem (e : AnalyzerEntry) : MenuItem :=
  { id := str "Scan " ++ e.query ++ str " as a " ++ e.type ++ str " on " ++ e.analyzer.name
    title := str "Scan this " ++ e.type ++ str " on " ++ e.analyzer.name }

/-- One observable action of `createContextMenus` on the browser's menu. -/
inductive MenuEffect
  | removeAll
  | create (item : MenuItem)
deriving DecidableEq

/-- The searcher loop of `createContextMenus` (src/background.ts lines
82-99): walks the searcher entries, skips the ones disabled by
`searcherStates`, records the first kept entry whose type is not `"text"`
into `nonTextEntry`, and creates one menu item per kept entry.  Returns the
created items in order and the final `nonTextEntry`. -/
def searcherLoop (states : SearcherStates) :
    List AnalyzerEntry → Option AnalyzerEntry → List MenuItem × Option AnalyzerEntry
  | [], nt => ([], nt)
  | e :: rest, nt =>
    if enabledB states e.analyzer.name then
      let nt' := if e.type ≠ str "text" ∧ nt = none then some e else nt
      ((mkSearcherItem e) :: (searcherLoop states rest nt').1, (searcherLoop states rest nt').2)
    else
      searcherLoop states rest nt

/-- `createContextMenus` (src/background.ts lines 69-123) as the ordered
list of menu effects it performs: `removeAll` first, then one `create` per
kept searcher entry, then the optional search-on-all item, then one
`create` per scanner entry (the scanner loop performs no `searcherStates`
check). -/
def createContextMenus (sE scE : List AnalyzerEntry) (states : SearcherStates) :
    List MenuEffect :=
  MenuEffect.removeAll
    :: (searcherLoop states sE none).1.map MenuEffect.create
    ++ (match (searcherLoop states sE none).2 with
        | some e => [MenuEffect.create (mkAllItem e)]
        | none => [])
    ++ scE.map (fun e => MenuEffect.create (mkScannerItem e))

/-- The browser's context menu, replayed: `removeAll` clears it, `create`
appends one item. -/
def applyEffects (menu : List MenuItem) : List MenuEffect → List MenuItem
  | [] => menu
  | MenuEffect.removeAll :: rest => applyEffects [] rest
  | MenuEffect.create i :: rest => applyEffects (menu ++ [i]) rest

/-- A parsed `Command` with its four fields (src/lib/types via
src/background.ts: `command.action`, `command.target`, and the query/type
the id encodes). -/
structure Command where
  action : MStr
  target : MStr
  type : MStr
  query : MStr
deriving DecidableEq

/-- Modelled from the spec: the `Command` parser (src/lib/command.ts is not
under src/).  The spec (§4.6, §6, §3) says a `Command` is "parsed from a
single opaque identifier string encoding {action, query, type,
analyzerName}" and that the menu-id encoding produced by
`createContextMenus` — `<Action> <query> as a <type> on <target>` — "must
be unambiguously reversible by the Command parser".  The parser is
therefore the positional inverse of that format: the words of the id
(split at spaces) give the action (first word, lower-cased), the target
(last word), the type (third word from the end), and the query (the words
between the first and the final five, re-joined with spaces). -/
def parseCommand (id : MStr) : Command :=
  { action := asciiLower ((splitSp id).headD [])
    target := (splitSp id).getLastD []
    type := (splitSp id).getD ((splitSp id).length - 3) []
    query := joinSp (((splitSp id).drop 1).take ((splitSp id).length - 6)) }

/-- An error message carried by a JavaScript exception (`err.message`). -/
abbrev ErrMsg := MStr

/-- A browser notification as created by `showNotification`
(src/background.ts lines 13-20); the constant icon and type are omitted. -/
structure Notification where
  title : MStr
  message : MStr
deriving DecidableEq

/-- One observable action of the dispatch layer. -/
inductive Effect
  | createTab (url : MStr)
  | notify (n : Notification)
deriving DecidableEq

/-- `showNotification(message)` (src/background.ts lines 13-20): a
notification titled "Mitaka" whose body is exactly the given message. -/
def showNotification (message : MStr) : Effect :=
  Effect.notify { title := str "Mitaka", message := message }

/-- `ApiKeys`: mapping from scanner name to credential string. -/
abbrev ApiKeys := List (MStr × MStr)

/-- The `search` handler (src/background.ts lines 22-32).  The outcome of
`command.search()` (src/lib/command.ts, not under src/) is passed in as an
`Except`: `ok url` when it returns, `error e` when it throws.  Inside the
`try`, an empty url opens nothing and a non-empty url opens one tab; a
thrown exception is caught and turned into a notification. -/
def search (searchResult : Except ErrMsg MStr) : List Effect :=
  match searchResult with
  | Except.ok url => if url = [] then [] else [Effect.createTab url]
  | Except.error e => [showNotification e]

/-- The `searchAll` handler (src/background.ts lines 34-48).  The storage
read (`browser.storage.sync.get("searcherStates")`) and
`command.searchAll(states)` both happen inside the `try`; each is passed in
as a fallible computation.  A missing `searcherStates` key (`ok none`)
falls back to the empty mapping; every returned url opens a tab (no
emptiness check on this path); any exception becomes a notification. -/
def searchAll (storageResult : Except ErrMsg (Option SearcherStates))
    (commandSearchAll : SearcherStates → Except ErrMsg (List MStr)) : List Effect :=
  match storageResult with
  | Except.error e => [showNotification e]
  | Except.ok cfg =>
    match commandSearchAll (cfg.getD []) with
    | Except.error e => [showNotification e]
    | Except.ok urls => urls.map Effect.createTab

/-- The `scan` handler (src/background.ts lines 50-61).  `getApiKeys()` is
awaited BEFORE the `try` block, so its failure is not caught and the
handler itself ends in an exception (`Except.error`).  Inside the `try`,
`command.scan(apiKeys)` (src/lib/command.ts, not under src/) either returns
a url — empty means no navigation, non-empty opens one tab — or throws, in
which case a notification is shown. -/
def scan (apiKeysResult : Except ErrMsg ApiKeys)
    (commandScan : ApiKeys → Except ErrMsg MStr) : Except ErrMsg (List Effect) :=
  match apiKeysResult with
  | Except.error e => Except.error e
  | Except.ok keys =>
    Except.ok
      (match commandScan keys with
       | Except.ok url => if url = [] then [] else [Effect.createTab url]
       | Except.error e => [showNotification e])

/-- The fallible collaborators of the click listener, injected as values:
the outcomes of `command.search()`, of the storage read, of
`command.searchAll`, of `getApiKeys()`, and of `command.scan`. -/
structure DispatchEnv where
  commandSearch : Except ErrMsg MStr
  storageResult : Except ErrMsg (Option SearcherStates)
  commandSearchAll : SearcherStates → Except ErrMsg (List MStr)
  apiKeysResult : Except ErrMsg ApiKeys
  commandScan : ApiKeys → Except ErrMsg MStr

/-- The `browser.contextMenus.onClicked` listener (src/background.ts
lines 143-158): parse the clicked menu id into a `Command`, then switch on
`command.action` — `"search"` goes to `searchAll` when the target is
`"all"` and to `search` otherwise, `"scan"` goes to `scan`, and any other
action falls through the `switch` and does nothing. -/
def onClicked (env : DispatchEnv) (id : MStr) : Except ErrMsg (List Effect) :=
  let command := parseCommand id
  if command.action = str "search" then
    if command.target = str "all" then
      Except.ok (searchAll env.storageResult env.commandSearchAll)
    else
      Except.ok (search env.commandSearch)
  else if command.action = str "scan" then
    scan env.apiKeysResult env.commandScan
  else
    Except.ok []

/-- External configuration storage as the dispatch layer sees it: the
`searcherStates` slot of `browser.storage.sync` (absent or present) and the
API-key configuration behind `getApiKeys()`. -/
structure World where
  storage : Option SearcherStates
  apiKeys : ApiKeys
deriving DecidableEq

/-- An event of the background page's life: an external configuration
update, or a user click dispatching `searchAll` or `scan`. -/
inductive Event
  | setStorage (s : Option SearcherStates)
  | setApiKeys (k : ApiKeys)
  | clickSearchAll
  | clickScan

/-- Replay of a sequence of events against the configuration storage.
Each `searchAll` invocation reads the `searcherStates` slot as it is at
that moment, each `scan` invocation reads the API keys as they are at that
moment (src/background.ts lines 36 and 51 perform the reads per
invocation), and neither handler writes to storage (no storage write
occurs anywhere in src/background.ts).  Returns the final storage and the
outcomes of the dispatches in order. -/
def runEvents (f : SearcherStates → Except ErrMsg (List MStr))
    (g : ApiKeys → Except ErrMsg MStr) :
    World → List Event → World × List (Except ErrMsg (List Effect))
  | w, [] => (w, [])
  | w, Event.setStorage s :: rest => runEvents f g { w with storage := s } rest
  | w, Event.setApiKeys k :: rest => runEvents f g { w with apiKeys := k } rest
  | w, Event.clickSearchAll :: rest =>
    ((runEvents f g w rest).1,
      Except.ok (searchAll (Except.ok w.storage) f) :: (runEvents f g w rest).2)
  | w, Event.clickScan :: rest =>
    ((runEvents f g w rest).1,
      scan (Except.ok w.apiKeys) g :: (runEvents f g w rest).2)

/-- The ONYPHE searcher class (src/unnamed/part_000): endpoint, name and
supported types as set by its constructor. -/
structure ONYPHE where
  endpoint : MStr
  name : MStr
  supportedTypes : List MStr
deriving DecidableEq

/-- The ONYPHE constructor (src/unnamed/part_000 lines 7-12). -/
def ONYPHE.new : ONYPHE :=
  { endpoint := str "https://www.onyphe.io"
    name := str "ONYPHE"
    supportedTypes := [str "ip"] }

/-- `ONYPHE.searchByIP` (src/unnamed/part_000 lines 14-16): the template
string `${this.endpoint}/ip/${query}`. -/
def ONYPHE.searchByIP (o : ONYPHE) (query : MStr) : MStr :=
  o.endpoint ++ str "/ip/" ++ query

/-! ### Helper lemmas about the split/join string model -/

theorem splitSp_ne_nil (s : MStr) : splitSp s ≠ [] := by
  induction s with
  | nil => simp [splitSp]
  | cons c cs ih =>
    cases h : splitSp cs with
    | nil => exact absurd h ih
    | cons w ws =>
      simp only [splitSp, h]
      split <;> simp

theorem splitSp_append (xs ys : MStr) :
    splitSp (xs ++ ' ' :: ys) = splitSp xs ++ splitSp ys := by
  induction xs with
  | nil =>
    cases h : splitSp ys with
    | nil => exact absurd h (splitSp_ne_nil ys)
    | cons w ws => simp [splitSp, h]
  | cons c cs ih =>
    cases h : splitSp cs with
    | nil => exact absurd h (splitSp_ne_nil cs)
    | cons w ws =>
      have hmid : splitSp (cs ++ ' ' :: ys) = w :: (ws ++ splitSp ys) := by
        rw [ih, h]; rfl
      by_cases hc : c = ' '
      · subst hc
        show splitSp (' ' :: (cs ++ ' ' :: ys)) = splitSp (' ' :: cs) ++ splitSp ys
        simp only [splitSp, hmid, h]
        simp
      · show splitSp (c :: (cs ++ ' ' :: ys)) = splitSp (c :: cs) ++ splitSp ys
        simp only [splitSp, hmid, h]
        simp [hc]

theorem splitSp_nospace (xs : MStr) (h : ' ' ∉ xs) : splitSp xs = [xs] := by
  induction xs with
  | nil => rfl
  | cons c cs ih =>
    have hc : ¬(c = ' ') := fun e => h (by simp [e])
    have ih' := ih (fun m => h (List.mem_cons_of_mem _ m))
    simp only [splitSp, ih']
    simp [hc]

theorem joinSp_splitSp (s : MStr) : joinSp (splitSp s) = s := by
  induction s with
  | nil => rfl
  | cons c cs ih =>
    cases h : splitSp cs with
    | nil => exact absurd h (splitSp_ne_nil cs)
    | cons w ws =>
      rw [h] at ih
      by_cases hc : c = ' '
      · subst hc
        simp only [splitSp, h, if_pos rfl]
        simpa [joinSp] using ih
      · simp only [splitSp, h, if_neg hc]
        cases ws with
        | nil => simpa [joinSp] using congrArg (c :: ·) ih
        | cons w2 ws' =>
          simp only [joinSp] at ih ⊢
          simp [← ih]

/-- The words of a produced menu id: leading action word, the words of the
query, then the fixed trailer `as a <type> on <target>`. -/
theorem splitSp_menuId (a q t n : MStr) (ha : ' ' ∉ a) (ht : ' ' ∉ t) (hn : ' ' ∉ n) :
    splitSp (a ++ ' ' :: (q ++ ' ' :: (str "as" ++ ' ' :: (str "a" ++ ' ' ::
        (t ++ ' ' :: (str "on" ++ ' ' :: n)))))) =
      a :: (splitSp q ++ [str "as", str "a", t, str "on", n]) := by
  rw [splitSp_append a, splitSp_append q, splitSp_append (str "as"),
    splitSp_append (str "a"), splitSp_append t, splitSp_append (str "on"),
    splitSp_nospace a ha, splitSp_nospace t ht, splitSp_nospace n hn,
    splitSp_nospace (str "as") (by decide), splitSp_nospace (str "a") (by decide),
    splitSp_nospace (str "on") (by decide)]
  simp

/-- Parsing an id of the produced shape recovers all four fields, for any
query whatsoever, provided the type and the target contain no space. -/
theorem parseCommand_encoded (a q t n : MStr) (ha : ' ' ∉ a) (ht : ' ' ∉ t)
    (hn : ' ' ∉ n) :
    parseCommand (a ++ ' ' :: (q ++ ' ' :: (str "as" ++ ' ' :: (str "a" ++ ' ' ::
        (t ++ ' ' :: (str "on" ++ ' ' :: n)))))) =
      { action := asciiLower a, target := n, type := t, query := q } := by
  have hws := splitSp_menuId a q t n ha ht hn
  have hk : 0 < (splitSp q).length := List.length_pos.mpr (splitSp_ne_nil q)
  unfold parseCommand
  rw [hws]
  have hlen : (a :: (splitSp q ++ [str "as", str "a", t, str "on", n])).length
      = (splitSp q).length + 6 := by simp
  simp only [Command.mk.injEq]
  refine ⟨rfl, ?_, ?_, ?_⟩
  · rw [show a :: (splitSp q ++ [str "as", str "a", t, str "on", n])
        = (a :: (splitSp q ++ [str "as", str "a", t, str "on"])) ++ [n] by simp]
    exact List.getLastD_concat _ _ _
  · rw [hlen, show (splitSp q).length + 6 - 3 = ((splitSp q).length + 2) + 1 by omega]
    rw [show a :: (splitSp q ++ [str "as", str "a", t, str "on", n])
        = a :: ((splitSp q ++ [str "as", str "a"]) ++ (t :: [str "on", n])) by simp]
    rw [List.getD_cons_succ]
    rw [show (splitSp q).length + 2 = (splitSp q ++ [str "as", str "a"]).length by simp]
    rw [List.getD_append_right _ _ _ _ (le_refl _)]
    simp
  · rw [hlen, show (splitSp q).length + 6 - 6 = (splitSp q).length by omega]
    rw [List.drop_one, show (a :: (splitSp q ++ [str "as", str "a", t, str "on", n])).tail
        = splitSp q ++ [str "as", str "a", t, str "on", n] by rfl]
    rw [List.take_left]
    exact joinSp_splitSp q

theorem strSearchSp : str "Search " = str "Search" ++ [' '] := rfl

theorem strScanSp : str "Scan " = str "Scan" ++ [' '] := rfl

theorem strAsA : str " as a " = [' '] ++ (str "as" ++ ([' '] ++ (str "a" ++ [' ']))) := rfl

theorem strOnSp : str " on " = [' '] ++ (str "on" ++ [' ']) := rfl

theorem strOnAll : str " on all" = [' '] ++ (str "on" ++ ([' '] ++ str "all")) := rfl

/-- C1: for every context-menu id produced by `createContextMenus` — a
searcher id, a scanner id, or the search-on-all id — parsing the id with
the Command parser recovers exactly the original action, query, type and
analyzer name, for every query string whatsoever (delimiter words and
special characters in the query included), whenever the type and the
analyzer name contain no space character (true of every indicator type and
of the analyzer name occurring in the sources). -/
theorem c1_menu_id_roundtrip (q t n : MStr) (ht : ' ' ∉ t) (hn : ' ' ∉ n) :
    parseCommand (mkSearcherItem ⟨⟨n⟩, t, q⟩).id
        = { action := str "search", target := n, type := t, query := q } ∧
    parseCommand (mkScannerItem ⟨⟨n⟩, t, q⟩).id
        = { action := str "scan", target := n, type := t, query := q } ∧
    parseCommand (mkAllItem ⟨⟨n⟩, t, q⟩).id
        = { action := str "search", target := str "all", type := t, query := q } := by
  refine ⟨?_, ?_, ?_⟩
  · have hid : (mkSearcherItem ⟨⟨n⟩, t, q⟩).id
        = str "Search" ++ ' ' :: (q ++ ' ' :: (str "as" ++ ' ' :: (str "a" ++ ' ' ::
            (t ++ ' ' :: (str "on" ++ ' ' :: n))))) := by
      simp [mkSearcherItem, strSearchSp, strAsA, strOnSp, List.append_assoc]
    rw [hid, parseCommand_encoded (str "Search") q t n (by decide) ht hn,
      show asciiLower (str "Search") = str "search" by decide]
  · have hid : (mkScannerItem ⟨⟨n⟩, t, q⟩).id
        = str "Scan" ++ ' ' :: (q ++ ' ' :: (str "as" ++ ' ' :: (str "a" ++ ' ' ::
            (t ++ ' ' :: (str "on" ++ ' ' :: n))))) := by
      simp [mkScannerItem, strScanSp, strAsA, strOnSp, List.append_assoc]
    rw [hid, parseCommand_encoded (str "Scan") q t n (by decide) ht hn,
      show asciiLower (str "Scan") = str "scan" by decide]
  · have hid : (mkAllItem ⟨⟨n⟩, t, q⟩).id
        = str "Search" ++ ' ' :: (q ++ ' ' :: (str "as" ++ ' ' :: (str "a" ++ ' ' ::
            (t ++ ' ' :: (str "on" ++ ' ' :: str "all"))))) := by
      simp [mkAllItem, strSearchSp, strAsA, strOnAll, List.append_assoc]
    rw [hid, parseCommand_encoded (str "Search") q t (str "all") (by decide) ht (by decide),
      show asciiLower (str "Search") = str "search" by decide]

/-- C1 witness: a query containing the delimiter words `as a ... on all`
still round-trips through encode-then-parse. -/
theorem c1_menu_id_roundtrip_witness :
    parseCommand (mkSearcherItem ⟨⟨str "ONYPHE"⟩, str "ip", str "1.2.3.4 as a ip on all"⟩).id
      = { action := str "search", target := str "ONYPHE", type := str "ip",
          query := str "1.2.3.4 as a ip on all" } :=
  (c1_menu_id_roundtrip (str "1.2.3.4 as a ip on all") (str "ip") (str "ONYPHE")
    (by decide) (by decide)).1

/-! ### Characterization of the menu build -/

theorem searcherLoop_fst (states : SearcherStates) (l : List AnalyzerEntry) :
    ∀ nt, (searcherLoop states l nt).1
      = (l.filter fun e => enabledB states e.analyzer.name).map mkSearcherItem := by
  induction l with
  | nil => intro nt; rfl
  | cons e rest ih =>
    intro nt
    cases h : enabledB states e.analyzer.name <;>
      simp [searcherLoop, h, List.filter_cons, ih]

theorem searcherLoop_snd_some (states : SearcherStates) (l : List AnalyzerEntry)
    (x : AnalyzerEntry) : (searcherLoop states l (some x)).2 = some x := by
  induction l with
  | nil => rfl
  | cons e rest ih =>
    cases h : enabledB states e.analyzer.name <;> simp [searcherLoop, h, ih]

theorem searcherLoop_snd_none (states : SearcherStates) (l : List AnalyzerEntry) :
    (searcherLoop states l none).2
      = l.find? fun e => enabledB states e.analyzer.name && decide (e.type ≠ str "text") := by
  induction l with
  | nil => rfl
  | cons e rest ih =>
    cases h : enabledB states e.analyzer.name with
    | false => simp [searcherLoop, h, List.find?_cons, ih]
    | true =>
      by_cases htx : e.type = str "text"
      · simp [searcherLoop, h, htx, List.find?_cons, ih]
      · simp [searcherLoop, h, htx, List.find?_cons, searcherLoop_snd_some]

/-- What `createContextMenus` performs, in closed form: clear the menu,
create one item per enabled searcher entry (in order), then the
search-on-all item for the first enabled non-text entry when one exists,
then one item per scanner entry — the scanner entries unfiltered. -/
theorem createContextMenus_spec (sE scE : List AnalyzerEntry) (states : SearcherStates) :
    createContextMenus sE scE states =
      MenuEffect.removeAll
        :: ((sE.filter fun e => enabledB states e.analyzer.name).map
              fun e => MenuEffect.create (mkSearcherItem e))
        ++ ((sE.find? fun e => enabledB states e.analyzer.name
                && decide (e.type ≠ str "text")).toList.map
              fun e => MenuEffect.create (mkAllItem e))
        ++ (scE.map fun e => MenuEffect.create (mkScannerItem e)) := by
  unfold createContextMenus
  rw [searcherLoop_fst, searcherLoop_snd_none]
  cases h : sE.find? fun e => enabledB states e.analyzer.name && decide (e.type ≠ str "text") <;>
    simp [h, List.map_map, Function.comp]

theorem enabledB_false_iff (states : SearcherStates) (n : MStr) :
    enabledB states n = false ↔ lookupState states n = some false := by
  unfold enabledB
  cases h : lookupState states n with
  | none => simp
  | some b => cases b <;> simp

theorem applyEffects_creates (l : List MenuItem) :
    ∀ m, applyEffects m (l.map MenuEffect.create) = m ++ l := by
  induction l with
  | nil => intro m; simp [applyEffects]
  | cons i rest ih => intro m; simp [applyEffects, ih]

theorem applyEffects_removeAll (m : List MenuItem) (rest : List MenuEffect) :
    applyEffects m (MenuEffect.removeAll :: rest) = applyEffects [] rest := rfl

theorem map_create_comp (f : AnalyzerEntry → MenuItem) (l : List AnalyzerEntry) :
    l.map (fun e => MenuEffect.create (f e)) = (l.map f).map MenuEffect.create := by
  rw [List.map_map]; rfl

/-- C2 counterexample: with ONYPHE mapped to `false` in `searcherStates`,
`createContextMenus` still creates the scanner menu item of the ONYPHE
scanner entry (the scanner loop performs no `searcherStates` check), while
the searcher item of the same analyzer is indeed omitted — so disabling an
analyzer does NOT remove its scanner entries. -/
theorem c2_scanner_unfiltered_counterexample :
    MenuEffect.create (mkScannerItem ⟨⟨str "ONYPHE"⟩, str "ip", str "1.1.1.1"⟩)
        ∈ createContextMenus [⟨⟨str "ONYPHE"⟩, str "ip", str "1.1.1.1"⟩]
            [⟨⟨str "ONYPHE"⟩, str "ip", str "1.1.1.1"⟩] [(str "ONYPHE", false)] ∧
    MenuEffect.create (mkSearcherItem ⟨⟨str "ONYPHE"⟩, str "ip", str "1.1.1.1"⟩)
        ∉ createContextMenus [⟨⟨str "ONYPHE"⟩, str "ip", str "1.1.1.1"⟩]
            [⟨⟨str "ONYPHE"⟩, str "ip", str "1.1.1.1"⟩] [(str "ONYPHE", false)] := by
  decide

/-- C2 amended: an analyzer name mapped to `false` in `searcherStates` is
exactly the condition under which a searcher entry is dropped, the dropping
applies to the searcher entries only (order-preserving filter keeping every
entry of every other analyzer), and the scanner entries are created
unfiltered, disabled analyzers included. -/
theorem c2_disable_removes_searcher_entries_only (states : SearcherStates)
    (sE scE : List AnalyzerEntry) :
    (∀ n, enabledB states n = false ↔ lookupState states n = some false) ∧
    createContextMenus sE scE states =
      MenuEffect.removeAll
        :: ((sE.filter fun e => enabledB states e.analyzer.name).map
              fun e => MenuEffect.create (mkSearcherItem e))
        ++ ((sE.find? fun e => enabledB states e.analyzer.name
                && decide (e.type ≠ str "text")).toList.map
              fun e => MenuEffect.create (mkAllItem e))
        ++ (scE.map fun e => MenuEffect.create (mkScannerItem e)) :=
  ⟨fun n => enabledB_false_iff states n, createContextMenus_spec sE scE states⟩

/-- C5: an analyzer whose name is absent from the `searcherStates` mapping
(or present with value `true`) is treated as enabled — its searcher menu
item is created; only a name present with value `false` makes the loop skip
an entry. -/
theorem c5_absent_means_enabled (states : SearcherStates) (sE scE : List AnalyzerEntry)
    (e : AnalyzerEntry) (he : e ∈ sE)
    (h : lookupState states e.analyzer.name ≠ some false) :
    MenuEffect.create (mkSearcherItem e) ∈ createContextMenus sE scE states := by
  have hen : enabledB states e.analyzer.name = true := by
    cases hb : enabledB states e.analyzer.name
    · exact absurd ((enabledB_false_iff states e.analyzer.name).mp hb) h
    · rfl
  rw [createContextMenus_spec]
  refine List.mem_cons_of_mem _ (List.mem_append_left _ (List.mem_append_left _ ?_))
  exact List.mem_map_of_mem _ (List.mem_filter.mpr ⟨he, hen⟩)

/-- C5 witness: with an empty `searcherStates` mapping (name absent), the
entry's searcher item is created. -/
theorem c5_absent_means_enabled_witness :
    MenuEffect.create (mkSearcherItem ⟨⟨str "ONYPHE"⟩, str "ip", str "1.1.1.1"⟩)
      ∈ createContextMenus [⟨⟨str "ONYPHE"⟩, str "ip", str "1.1.1.1"⟩] [] [] :=
  c5_absent_means_enabled [] _ [] _ (by decide) (by decide)

/-- C8: the search-on-all item is created precisely when some enabled
searcher entry has a type other than `"text"`; when created it is the
single item of its segment and is built (id and title) from the query and
type of the FIRST such entry in searcher-entry order. -/
theorem c8_all_entry (states : SearcherStates) (sE scE : List AnalyzerEntry) :
    ((sE.find? fun e => enabledB states e.analyzer.name
        && decide (e.type ≠ str "text")).isSome
      ↔ ∃ e ∈ sE, enabledB states e.analyzer.name = true ∧ e.type ≠ str "text") ∧
    createContextMenus sE scE states =
      MenuEffect.removeAll
        :: ((sE.filter fun e => enabledB states e.analyzer.name).map
              fun e => MenuEffect.create (mkSearcherItem e))
        ++ (match sE.find? fun e => enabledB states e.analyzer.name
                && decide (e.type ≠ str "text") with
            | some e => [MenuEffect.create (mkAllItem e)]
            | none => [])
        ++ (scE.map fun e => MenuEffect.create (mkScannerItem e)) := by
  constructor
  · rw [List.find?_isSome]
    constructor
    · rintro ⟨e, he, hp⟩
      simp only [Bool.and_eq_true, decide_eq_true_eq] at hp
      exact ⟨e, he, hp⟩
    · rintro ⟨e, he, h1, h2⟩
      exact ⟨e, he, by simp [h1, h2]⟩
  · rw [createContextMenus_spec]
    cases h : sE.find? fun e => enabledB states e.analyzer.name
        && decide (e.type ≠ str "text") <;> simp [h]

/-- C9: `createContextMenus` clears the menu as its first action, and the
menu it leaves behind is the same whatever the menu held before — exactly
the items derived from the current entries and settings; nothing from a
previous build survives. -/
theorem c9_rebuild_from_scratch (m : List MenuItem) (sE scE : List AnalyzerEntry)
    (states : SearcherStates) :
    (createContextMenus sE scE states).head? = some MenuEffect.removeAll ∧
    applyEffects m (createContextMenus sE scE states) =
      (sE.filter fun e => enabledB states e.analyzer.name).map mkSearcherItem
        ++ (sE.find? fun e => enabledB states e.analyzer.name
              && decide (e.type ≠ str "text")).toList.map mkAllItem
        ++ scE.map mkScannerItem := by
  constructor
  · rw [createContextMenus_spec]; rfl
  · rw [createContextMenus_spec]
    simp only [List.cons_append]
    rw [applyEffects_removeAll, map_create_comp mkSearcherItem, map_create_comp mkAllItem,
      map_create_comp mkScannerItem, ← List.map_append, ← List.map_append,
      applyEffects_creates, List.nil_append]

/-! ### Dispatch-layer claims -/

/-- C3: in the single-target `search` handler and in the `scan` handler,
a resolved URL equal to the empty string opens no tab (no effect at all),
and a non-empty resolved URL opens exactly one tab. -/
theorem c3_empty_url_no_navigation (url : MStr) (keys : ApiKeys)
    (g : ApiKeys → Except ErrMsg MStr) :
    search (Except.ok url) = (if url = [] then [] else [Effect.createTab url]) ∧
    (g keys = Except.ok url →
      scan (Except.ok keys) g
        = Except.ok (if url = [] then [] else [Effect.createTab url])) := by
  refine ⟨rfl, fun h => ?_⟩
  simp only [scan, h]

/-- C3 witness: the empty URL produces no tab in either handler. -/
theorem c3_empty_url_no_navigation_witness :
    search (Except.ok (str "")) = [] ∧
    scan (Except.ok ([] : ApiKeys)) (fun _ => Except.ok (str "")) = Except.ok [] := by
  have h := c3_empty_url_no_navigation (str "") [] (fun _ => Except.ok (str ""))
  exact ⟨by simpa using h.1, by simpa using h.2 rfl⟩

/-- C4 counterexample: when the API-key read rejects, the `scan` handler
itself ends in an exception — `getApiKeys()` is awaited before the `try`
block, so this failure is not caught and is not converted to a
notification; it propagates past the handler. -/
theorem c4_apikeys_failure_propagates_counterexample :
    scan (Except.error (str "storage read failed"))
        (fun _ => Except.ok (str "https://example.com"))
      = Except.error (str "storage read failed") := rfl

/-- C4 amended: every exception raised inside the try blocks of the
`search`, `searchAll` and `scan` handlers — the resolution of
`command.search()`, the storage read, `command.searchAll`, and
`command.scan` — is caught there and converted to a notification whose
message body is exactly the underlying error's message; the one exception
to this is the API-key fetch of `scan`, which happens before its try block
and whose failure propagates out of the handler uncaught. -/
theorem c4_try_blocks_notify (e : ErrMsg) (cfg : Option SearcherStates)
    (f : SearcherStates → Except ErrMsg (List MStr))
    (g : ApiKeys → Except ErrMsg MStr) (keys : ApiKeys) :
    search (Except.error e) = [showNotification e] ∧
    searchAll (Except.error e) f = [showNotification e] ∧
    (f (cfg.getD []) = Except.error e →
      searchAll (Except.ok cfg) f = [showNotification e]) ∧
    (g keys = Except.error e →
      scan (Except.ok keys) g = Except.ok [showNotification e]) ∧
    scan (Except.error e) g = Except.error e := by
  refine ⟨rfl, rfl, fun h => ?_, fun h => ?_, rfl⟩
  · simp only [searchAll, h]
  · simp only [scan, h]

/-- C4 witness: concrete failing resolutions are each converted to a
notification carrying the error message, and a failing API-key fetch
escapes `scan` as an exception. -/
theorem c4_try_blocks_notify_witness :
    searchAll (Except.ok none) (fun _ => Except.error (str "boom"))
        = [showNotification (str "boom")] ∧
    scan (Except.ok ([] : ApiKeys)) (fun _ => Except.error (str "boom"))
        = Except.ok [showNotification (str "boom")] ∧
    scan (Except.error (str "boom")) (fun _ => Except.ok (str ""))
        = Except.error (str "boom") := by
  have h := c4_try_blocks_notify (str "boom") none
    (fun _ => Except.error (str "boom")) (fun _ => Except.error (str "boom")) []
  have h2 := c4_try_blocks_notify (str "boom") none
    (fun _ => Except.error (str "boom")) (fun _ => Except.ok (str "")) []
  exact ⟨h.2.2.1 rfl, h.2.2.2.1 rfl, h2.2.2.2.2⟩

theorem runEvents_snoc_searchAll (f : SearcherStates → Except ErrMsg (List MStr))
    (g : ApiKeys → Except ErrMsg MStr) (evts : List Event) : ∀ w : World,
    runEvents f g w (evts ++ [Event.clickSearchAll])
      = ((runEvents f g w evts).1,
          (runEvents f g w evts).2
            ++ [Except.ok (searchAll (Except.ok (runEvents f g w evts).1.storage) f)]) := by
  induction evts with
  | nil => intro w; simp [runEvents]
  | cons ev rest ih => intro w; cases ev <;> simp [runEvents, ih]

theorem runEvents_snoc_scan (f : SearcherStates → Except ErrMsg (List MStr))
    (g : ApiKeys → Except ErrMsg MStr) (evts : List Event) : ∀ w : World,
    runEvents f g w (evts ++ [Event.clickScan])
      = ((runEvents f g w evts).1,
          (runEvents f g w evts).2
            ++ [scan (Except.ok (runEvents f g w evts).1.apiKeys) g]) := by
  induction evts with
  | nil => intro w; simp [runEvents]
  | cons ev rest ih => intro w; cases ev <;> simp [runEvents, ih]

/-- C6: after any history of configuration updates and dispatches, a new
`searchAll` invocation reads the `searcherStates` slot as it stands at that
moment and a new `scan` invocation reads the API keys as they stand at
that moment — no snapshot from an earlier invocation is reused — and
neither invocation changes the stored configuration. -/
theorem c6_fresh_snapshots (f : SearcherStates → Except ErrMsg (List MStr))
    (g : ApiKeys → Except ErrMsg MStr) (w : World) (evts : List Event) :
    runEvents f g w (evts ++ [Event.clickSearchAll])
      = ((runEvents f g w evts).1,
          (runEvents f g w evts).2
            ++ [Except.ok (searchAll (Except.ok (runEvents f g w evts).1.storage) f)]) ∧
    runEvents f g w (evts ++ [Event.clickScan])
      = ((runEvents f g w evts).1,
          (runEvents f g w evts).2
            ++ [scan (Except.ok (runEvents f g w evts).1.apiKeys) g]) :=
  ⟨runEvents_snoc_searchAll f g evts w, runEvents_snoc_scan f g evts w⟩

/-- C7: the ONYPHE searcher's `searchByIP` is a total pure string build:
for every query it returns exactly `https://www.onyphe.io/ip/` followed by
the query. -/
theorem c7_onyphe_searchByIP (query : MStr) :
    ONYPHE.new.searchByIP query = str "https://www.onyphe.io/ip/" ++ query := by
  show (str "https://www.onyphe.io" ++ str "/ip/") ++ query
      = str "https://www.onyphe.io/ip/" ++ query
  rw [show str "https://www.onyphe.io" ++ str "/ip/" = str "https://www.onyphe.io/ip/"
    by decide]

/-- C10: a click whose menu id parses to an action that is neither
`search` nor `scan` falls through the dispatch switch: no tab is created
and no notification is shown. -/
theorem c10_unknown_action_noop (env : DispatchEnv) (id : MStr)
    (h1 : (parseCommand id).action ≠ str "search")
    (h2 : (parseCommand id).action ≠ str "scan") :
    onClicked env id = Except.ok [] := by
  unfold onClicked
  simp [h1, h2]

/-- C10 witness: an id whose action word is `Copy` dispatches nothing. -/
theorem c10_unknown_action_noop_witness :
    onClicked
        ⟨Except.ok (str ""), Except.ok none, fun _ => Except.ok [],
          Except.ok [], fun _ => Except.ok (str "")⟩
        (str "Copy x as a ip on Foo")
      = Except.ok [] :=
  c10_unknown_action_noop _ _ (by decide) (by decide)

end Mitaka
